import Mathlib

/-!
# Verification of the lftools-uv resource-cleanup and vote-tally logic

This development gives a shallow embedding of the OpenStack cleanup
utilities (`lftools_uv/openstack/cluster.py` and the structurally
identical server/volume/image modules) and of the governance vote
checker (`lftools_uv/cli/infofile.py`, `check_votes`), and proves the
specified properties about them.

String values are modelled as Lean `String`s; all character-level
operations (Python `in`, `split`, `rstrip`, `startswith`) are defined
over `String.data` so that every definition is executable and
kernel-reducible.
-/

namespace LftoolsUv

/-! ## Character-list string primitives (Python string semantics) -/

/-- `charsPrefix needle hay` is Python's `hay.startswith(needle)` on
character lists. -/
def charsPrefix : List Char → List Char → Bool
  | [], _ => true
  | _ :: _, [] => false
  | a :: as, b :: bs => a == b && charsPrefix as bs

/-- `charsSub needle hay` is Python's `needle in hay` (substring
containment) on character lists; the empty needle is contained in
everything, as in Python. -/
def charsSub (needle : List Char) : List Char → Bool
  | [] => charsPrefix needle []
  | b :: bs => charsPrefix needle (b :: bs) || charsSub needle bs

/-- Python's `needle in hay` on strings. -/
def strContains (hay needle : String) : Bool :=
  charsSub needle.data hay.data

/-- Python's `s.startswith(p)`. -/
def strStartsWith (s p : String) : Bool :=
  charsPrefix p.data s.data

/-- Python's `s.endswith(p)`. -/
def strEndsWith (s p : String) : Bool :=
  charsPrefix p.data.reverse s.data.reverse

/-- Python's `s.rstrip("/")`: drop all trailing `'/'` characters. -/
def rstripSlash (s : String) : String :=
  ⟨(s.data.reverse.dropWhile (fun c => c == '/')).reverse⟩

/-- Python's `s.split(sep)` for a one-character separator: splits on every
occurrence and keeps empty pieces, so the result is never empty. -/
def splitOnCharAux (sep : Char) : List Char → List Char → List (List Char)
  | [], acc => [acc.reverse]
  | c :: cs, acc =>
    if c == sep then acc.reverse :: splitOnCharAux sep cs []
    else splitOnCharAux sep cs (c :: acc)

/-- Python's `s.split("/")` (keeps empty pieces). -/
def splitSlash (s : String) : List String :=
  (splitOnCharAux '/' s.data []).map (fun l => ⟨l⟩)

/-- Python's whitespace `s.split()`: split on runs of whitespace, dropping
empty pieces. -/
def wsSplitAux : List Char → List Char → List (List Char)
  | [], acc => if acc.isEmpty then [] else [acc.reverse]
  | c :: cs, acc =>
    if c.isWhitespace then
      if acc.isEmpty then wsSplitAux cs []
      else acc.reverse :: wsSplitAux cs []
    else wsSplitAux cs (c :: acc)

/-- Python's `s.split()` on strings. -/
def pySplitWs (s : String) : List String :=
  (wsSplitAux s.data []).map (fun l => ⟨l⟩)

/-- Python's `" ".join(xs)`. -/
def joinSpace : List String → String
  | [] => ""
  | [x] => x
  | x :: xs => x ++ " " ++ joinSpace xs

/-! ## Cluster cleanup (`lftools_uv/openstack/cluster.py`)

The Jenkins endpoint, the OpenStack listing call and the per-cluster
delete call are external collaborators; they enter the embedding as
explicit oracles (`fetch`, `ClusterListResult`, a delete function). -/

/-- One executor record from the Jenkins `computer/api/json` payload:
`executor.get("currentExecutable", {}).get("url")`.  `none` covers a
missing `currentExecutable` or a missing `url` key. -/
structure Executor where
  url : Option String
deriving DecidableEq

/-- One computer record: `executors` and `oneOffExecutors`. -/
structure Computer where
  executors : List Executor
  oneOffExecutors : List Executor
deriving DecidableEq

/-- Outcome of `response.json()`. -/
inductive JsonBody where
  | invalid
  | parsed (computers : List Computer)
deriving DecidableEq

/-- Result of the `requests.get` call for one Jenkins URL: an HTTP
response with a status code and body, or one of the caught exception
classes (`Timeout`, `RequestException`, any other `Exception`). -/
inductive JenkinsFetch where
  | response (status : Nat) (body : JsonBody)
  | timeout
  | requestError
  | otherError
deriving DecidableEq

/-- Silo determination in `_fetch_jenkins_builds`: `"production"` when
the (r-stripped) URL contains `"jenkins."` and `".org"` or `".io"`,
else the last `/`-separated segment. -/
def siloOf (jenkins : String) : String :=
  if strContains jenkins "jenkins." &&
      (strContains jenkins ".org" || strContains jenkins ".io") then
    "production"
  else
    (splitSlash jenkins).getLastD ""

/-- Build identifiers contributed by one computer record:
for each executor (normal then one-off), take `currentExecutable.url`,
keep it when truthy and not `"null"`, r-strip `/`, split on `/`, and
when at least two parts remain emit `<silo>-<job>-<build-number>` from
the last two parts. -/
def buildsOfComputer (silo : String) (c : Computer) : List String :=
  (c.executors ++ c.oneOffExecutors).filterMap fun e =>
    match e.url with
    | none => none
    | some url =>
      if url ≠ "" && url ≠ "null" then
        let parts := splitSlash (rstripSlash url)
        if 2 ≤ parts.length then
          some (silo ++ "-" ++ parts.dropLast.getLastD "" ++ "-" ++ parts.getLastD "")
        else none
      else none

/-- Builds contributed by one Jenkins URL. Every failure branch of
`_fetch_jenkins_builds` (non-200 status, JSON decode error, timeout,
request exception, unexpected exception) prints an error and
contributes nothing. -/
def fetchOne (fetch : String → JenkinsFetch) (jenkinsRaw : String) : List String :=
  let jenkins := rstripSlash jenkinsRaw
  match fetch jenkins with
  | .response status body =>
    if status ≠ 200 then []
    else
      match body with
      | .invalid => []
      | .parsed computers => computers.flatMap (buildsOfComputer (siloOf jenkins))
  | .timeout => []
  | .requestError => []
  | .otherError => []

/-- `_fetch_jenkins_builds`: concatenates the builds of each URL in
order; never raises (every exception class is caught per URL). -/
def fetchJenkinsBuilds (urls : List String) (fetch : String → JenkinsFetch) : List String :=
  urls.flatMap (fetchOne fetch)

/-- `_cluster_in_jenkins`: `cluster_name in " ".join(jenkins_builds)`. -/
def clusterInJenkins (clusterName : String) (jenkinsBuilds : List String) : Bool :=
  strContains (joinSpace jenkinsBuilds) clusterName

/-- The managed-cluster exemption in `cleanup`. -/
def isManagedCluster (name : String) : Bool :=
  strContains name "-managed-prod-k8s-" || strContains name "-managed-test-k8s-"

/-- URL-list parsing at the top of `cleanup`: Python truthiness of
`jenkins_urls`, then `[url.strip() for url in jenkins_urls.split() if url.strip()]`
(whitespace `split()` already yields stripped non-empty pieces). -/
def parseJenkinsUrls (jenkins_urls : Option String) : List String :=
  match jenkins_urls with
  | none => []
  | some s => if s = "" then [] else pySplitWs s

/-- Result of `cloud.list_coe_clusters()`: the cluster names, an
`OpenStackCloudException`, or an `AttributeError` (operation
unsupported). -/
inductive ClusterListResult where
  | ok (clusters : List String)
  | cloudError
  | attrError
deriving DecidableEq

/-- Result of one `cloud.delete_coe_cluster(name)` call: success, an
`OpenStackCloudException` with a message, or any other exception. -/
inductive CoeDelete where
  | ok
  | cloudExc (msg : String)
  | otherExc (msg : String)
deriving DecidableEq

/-- Observable disposition of one cluster-cleanup run. -/
structure ClusterTrace where
  warnedNoUrls : Bool
  contactedCloud : Bool
  deleted : List String
  skippedManaged : List String
  skippedInUse : List String
  deleteErrors : List String
deriving DecidableEq

/-- How a cleanup invocation ends: normal return (process exit 0),
`sys.exit(code)`, or an uncaught exception propagating. -/
inductive RunOutcome (α : Type) where
  | normal (a : α)
  | exited (code : Nat)
  | raised (msg : String)
deriving DecidableEq

/-- The per-cluster loop of `cleanup`: managed clusters and clusters in
active Jenkins builds are skipped; otherwise the delete call is issued,
an `OpenStackCloudException` is caught and logged (the loop continues),
and any other exception propagates. -/
def clusterLoop (deleteF : String → CoeDelete) (builds : List String) :
    List String → ClusterTrace → RunOutcome ClusterTrace
  | [], tr => .normal tr
  | name :: rest, tr =>
    if isManagedCluster name then
      clusterLoop deleteF builds rest
        { tr with skippedManaged := tr.skippedManaged ++ [name] }
    else if clusterInJenkins name builds then
      clusterLoop deleteF builds rest
        { tr with skippedInUse := tr.skippedInUse ++ [name] }
    else
      match deleteF name with
      | .ok =>
        clusterLoop deleteF builds rest
          { tr with deleted := tr.deleted ++ [name] }
      | .cloudExc _ =>
        clusterLoop deleteF builds rest
          { tr with deleteErrors := tr.deleteErrors ++ [name] }
      | .otherExc m => .raised m

/-- `cluster.cleanup`: parse the Jenkins URLs; if none remain, warn and
return without contacting the cloud; otherwise fetch active builds,
connect to the cloud, list clusters (`OpenStackCloudException` and
`AttributeError` exit with status 1) and run the deletion loop. -/
def cluster_cleanup (jenkins_urls : Option String) (fetch : String → JenkinsFetch)
    (listResult : ClusterListResult) (deleteF : String → CoeDelete) :
    RunOutcome ClusterTrace :=
  let urls := parseJenkinsUrls jenkins_urls
  if urls = [] then
    .normal ⟨true, false, [], [], [], []⟩
  else
    let builds := fetchJenkinsBuilds urls fetch
    match listResult with
    | .cloudError => .exited 1
    | .attrError => .exited 1
    | .ok clusters => clusterLoop deleteF builds clusters ⟨false, true, [], [], [], []⟩

/-! ## The shared deleter of the server/volume/image cleanup utilities

Modelled from the spec: the modules `lftools_uv/openstack/server.py`,
`volume.py` and `image.py` are not present under `src/` (only their
tests are); the spec describes one deleter contract shared by all three
(§4.3): success counts as deleted; a `False` return counts as skipped
with a warning; a raised error matching one of the two duplicate-name
message shapes counts as skipped and the run continues; any other
raised error propagates and terminates the run. -/

/-- Result of one provider delete call: `True`, `False`, or a raised
error carrying a message. -/
inductive DeleteCallResult where
  | success
  | successFalse
  | raised (msg : String)
deriving DecidableEq

/-- Per-resource disposition recorded by the deleter. -/
inductive ItemOutcome where
  | deletedItem
  | skippedDuplicate
  | skippedFailed
deriving DecidableEq

/-- Modelled from the spec: the duplicate-name error signature — the two
known message shapes `"Multiple matches found for <name>"` and
`"More than one <Kind> exists with the name '<name>'"`. -/
def isDuplicateNameError (msg : String) : Bool :=
  strStartsWith msg "Multiple matches found for " ||
  (strStartsWith msg "More than one " &&
    strContains msg " exists with the name '" && strEndsWith msg "'")

/-- Modelled from the spec: the deleter loop over the eligible resources,
issuing one delete call per resource in order. -/
def deleterLoop (deleteF : String → DeleteCallResult) :
    List String → List (String × ItemOutcome) → RunOutcome (List (String × ItemOutcome))
  | [], acc => .normal acc
  | r :: rest, acc =>
    match deleteF r with
    | .success => deleterLoop deleteF rest (acc ++ [(r, .deletedItem)])
    | .successFalse => deleterLoop deleteF rest (acc ++ [(r, .skippedFailed)])
    | .raised m =>
      if isDuplicateNameError m then
        deleterLoop deleteF rest (acc ++ [(r, .skippedDuplicate)])
      else .raised m

/-- Modelled from the spec: a cleanup run's deleter stage over the
filtered candidate set. -/
def cleanup_deleter (eligible : List String) (deleteF : String → DeleteCallResult) :
    RunOutcome (List (String × ItemOutcome)) :=
  deleterLoop deleteF eligible []

/-- Process exit status of a run outcome: a normal return is exit 0; a
raised error is a fatal non-zero exit. -/
def exitStatus {α : Type} : RunOutcome α → Nat
  | .normal _ => 0
  | .exited c => c
  | .raised _ => 1

/-! ## Image filtering

Modelled from the spec: `lftools_uv/openstack/image.py` is not under
`src/`; §4.2 gives the image predicates — age (`now - created_at >=
threshold`, a zero/unset threshold passes everything), ownership
(`owner == current tenant id`), and visibility/protection (public,
shared, or protected/is_protected images are never eligible). All
predicates are conjunctive. -/

/-- An image resource descriptor (spec §3). -/
structure OsImage where
  name : String
  owner : String
  visibility : String
  is_public : Bool
  is_protected : Bool
  protectedFlag : Bool
  created_at : Int
deriving DecidableEq

/-- Modelled from the spec: the conjunction of the image cleanup
predicates; `now` and `created_at` are timestamps in seconds and `days`
is the age threshold in days. -/
def image_eligible (now : Int) (days : Nat) (tenant : String) (img : OsImage) : Bool :=
  !(img.is_public || img.visibility == "public") &&
  img.visibility != "shared" &&
  !(img.is_protected || img.protectedFlag) &&
  img.owner == tenant &&
  (days == 0 || (days : Int) * 86400 ≤ now - img.created_at)

/-- Modelled from the spec: the deletion candidate set of an image
cleanup run — exactly the images passing every predicate; a delete call
is issued only for members of this set. -/
def image_cleanup_candidates (now : Int) (days : Nat) (tenant : String)
    (imgs : List OsImage) : List OsImage :=
  imgs.filter (image_eligible now days tenant)

/-! ## Single-resource remove (servers, volumes)

Modelled from the spec: `server.remove` and `volume.remove` are not
under `src/`; §4.4 describes the shared operation — look the resource
up; if absent exit fatally with status 1; if a non-zero
minimum-age-in-minutes threshold is given and the resource is younger,
skip silently; a zero threshold always deletes. -/

/-- A server/volume resource descriptor (spec §3). -/
structure OsResource where
  name : String
  id : String
  created_at : Int
deriving DecidableEq

/-- Disposition of a single-resource remove call. -/
inductive RemoveResult where
  | notFound (exitCode : Nat)
  | skippedYoung
  | deletedRes
deriving DecidableEq

/-- Modelled from the spec: the single-resource remove operation.
`lookup` is the provider lookup result, `now` and `created_at` are
timestamps in seconds, `minutes` the minimum-age threshold. -/
def remove_resource (lookup : Option OsResource) (now : Int) (minutes : Nat) : RemoveResult :=
  match lookup with
  | none => .notFound 1
  | some r =>
    if minutes ≠ 0 ∧ now - r.created_at < (minutes : Int) * 60 then .skippedYoung
    else .deletedRes

/-! ## Governance vote tally (`lftools_uv/cli/infofile.py`, `check_votes`)

The INFO files and the review endpoint are external; they enter as a
committer oracle (`fileCommitters`, mapping a file path to its
committer id list) and a fixed reviewer list. -/

/-- The Gerrit branch of `check_votes`: keep the username of every
reviewer record whose `Code-Review` approval string contains `"+1"` or
`"+2"`.  Each record is a `(username, approval)` pair. -/
def gerritVoters (changes : List (String × String)) : List String :=
  changes.filterMap fun c =>
    if strContains c.2 "+1" || strContains c.2 "+2" then some c.1 else none

/-- `have_voted`: the committers that appear in the collected voter
list (`[item for item in info_committers if item in info_change]`). -/
def votedCommitters (committers voters : List String) : List String :=
  committers.filter (fun c => voters.contains c)

/-- How one `check_votes` run ends.  `outOfFuel` is the sentinel of the
bounded recursion model and is proved unreachable. -/
inductive VoteOutcome where
  | outOfFuel
  | failExit
  | committerDone
  | tscDone
deriving DecidableEq

/-- The recursive `main` of `check_votes`.  Returns the outcome and the
number of `main` invocations performed.  If no committer voted, exit 1;
if the majority `voted/total` is at least `1/2`, succeed — and when a
TSC file is supplied, increment the escalation counter and either stop
at counter 2 (`tscDone`) or recurse on the TSC file; otherwise exit 1.
The `fuel` parameter totalizes the recursion; `check_votes` supplies
fuel 2, and the theorems prove the sentinel is never reached. -/
def voteMainAux (fileCommitters : String → List String) (voters : List String)
    (tsc : Option String) : Nat → String → Nat → VoteOutcome × Nat
  | 0, _, _ => (.outOfFuel, 0)
  | fuel + 1, file, counter =>
    let committers := fileCommitters file
    let voted := votedCommitters committers voters
    if voted.length = 0 then (.failExit, 1)
    else if (1 / 2 : ℚ) ≤ (voted.length : ℚ) / (committers.length : ℚ) then
      match tsc with
      | none => (.committerDone, 1)
      | some t =>
        if counter + 1 = 2 then (.tscDone, 1)
        else
          let r := voteMainAux fileCommitters voters tsc fuel t (counter + 1)
          (r.1, r.2 + 1)
    else (.failExit, 1)

/-- `check_votes`: start `main` on the INFO file with escalation
counter 0. -/
def check_votes (fileCommitters : String → List String) (voters : List String)
    (info_file : String) (tsc : Option String) : VoteOutcome × Nat :=
  voteMainAux fileCommitters voters tsc 2 info_file 0

/-- One vote stage passes when someone voted and the majority
`voted/total` is at least `1/2`. -/
def stagePasses (fileCommitters : String → List String) (voters : List String)
    (file : String) : Bool :=
  let committers := fileCommitters file
  let voted := votedCommitters committers voters
  voted.length ≠ 0 &&
    decide ((1 / 2 : ℚ) ≤ (voted.length : ℚ) / (committers.length : ℚ))

/-- Classification of a single delete-call result by the deleter, under
the assumption that raised errors match the duplicate-name signature. -/
def itemOutcomeOf : DeleteCallResult → ItemOutcome
  | .success => .deletedItem
  | .successFalse => .skippedFailed
  | .raised _ => .skippedDuplicate

/-- A Jenkins endpoint fetch that contributes no builds: non-200
status, invalid JSON, timeout, request error, or unexpected error. -/
def fetchFailed : JenkinsFetch → Bool
  | .response 200 (.parsed _) => false
  | _ => true

/-! ## Helper lemmas -/

/-- A non-empty needle is never a substring of the empty string. -/
lemma strContains_empty_of_ne (name : String) (h : name ≠ "") :
    strContains "" name = false := by
  cases hd : name.data with
  | nil =>
    exact absurd (by cases name; cases hd; rfl) h
  | cons a as =>
    simp [strContains, hd, charsSub, charsPrefix]

/-- The cluster deletion loop with an always-succeeding delete call
deletes exactly the clusters that are neither managed nor in an active
build, and records the skips. -/
lemma clusterLoop_all_ok (builds clusters : List String) (tr : ClusterTrace) :
    clusterLoop (fun _ => .ok) builds clusters tr = .normal
      { tr with
        deleted := tr.deleted ++
          clusters.filter (fun n => !isManagedCluster n && !clusterInJenkins n builds),
        skippedManaged := tr.skippedManaged ++
          clusters.filter (fun n => isManagedCluster n),
        skippedInUse := tr.skippedInUse ++
          clusters.filter (fun n => !isManagedCluster n && clusterInJenkins n builds) } := by
  induction clusters generalizing tr with
  | nil => simp [clusterLoop]
  | cons n rest ih =>
    by_cases hman : isManagedCluster n = true
    · simp [clusterLoop, hman, ih, List.filter_cons, List.append_assoc]
    · rw [Bool.not_eq_true] at hman
      by_cases hj : clusterInJenkins n builds = true
      · simp [clusterLoop, hman, hj, ih, List.filter_cons, List.append_assoc]
      · rw [Bool.not_eq_true] at hj
        simp [clusterLoop, hman, hj, ih, List.filter_cons, List.append_assoc]

/-- The cluster deletion loop never terminates the run when the delete
call raises only provider exceptions (or succeeds). -/
lemma clusterLoop_no_other (deleteF : String → CoeDelete) (builds clusters : List String)
    (tr : ClusterTrace) (h : ∀ n m, deleteF n ≠ .otherExc m) :
    ∃ tr', clusterLoop deleteF builds clusters tr = .normal tr' := by
  induction clusters generalizing tr with
  | nil => exact ⟨tr, rfl⟩
  | cons n rest ih =>
    by_cases hman : isManagedCluster n = true
    · simpa [clusterLoop, hman] using ih _
    · rw [Bool.not_eq_true] at hman
      by_cases hj : clusterInJenkins n builds = true
      · simpa [clusterLoop, hman, hj] using ih _
      · rw [Bool.not_eq_true] at hj
        cases hd : deleteF n with
        | ok => simpa [clusterLoop, hman, hj, hd] using ih _
        | cloudExc m => simpa [clusterLoop, hman, hj, hd] using ih _
        | otherExc m => exact absurd hd (h n m)

/-- The deleter loop completes normally when every raised error matches
the duplicate-name signature, recording one outcome per resource in
order. -/
lemma deleterLoop_all_tolerated (deleteF : String → DeleteCallResult) (rs : List String)
    (acc : List (String × ItemOutcome))
    (h : ∀ r ∈ rs, ∀ m, deleteF r = .raised m → isDuplicateNameError m = true) :
    deleterLoop deleteF rs acc =
      .normal (acc ++ rs.map (fun r => (r, itemOutcomeOf (deleteF r)))) := by
  induction rs generalizing acc with
  | nil => simp [deleterLoop]
  | cons r rest ih =>
    have hrest : ∀ x ∈ rest, ∀ m, deleteF x = .raised m → isDuplicateNameError m = true :=
      fun x hx => h x (List.mem_cons_of_mem _ hx)
    cases hd : deleteF r with
    | success => simp [deleterLoop, hd, ih _ hrest, itemOutcomeOf, List.append_assoc]
    | successFalse => simp [deleterLoop, hd, ih _ hrest, itemOutcomeOf, List.append_assoc]
    | raised m =>
      have hdup : isDuplicateNameError m = true := h r (List.mem_cons_self _ _) m hd
      simp [deleterLoop, hd, hdup, ih _ hrest, itemOutcomeOf, List.append_assoc]

/-- The deleter loop propagates the first raised error that does not
match the duplicate-name signature. -/
lemma deleterLoop_raises (deleteF : String → DeleteCallResult) (rs₁ : List String)
    (r : String) (rs₂ : List String) (acc : List (String × ItemOutcome)) (m : String)
    (hr : deleteF r = .raised m) (hm : isDuplicateNameError m = false)
    (hpre : ∀ x ∈ rs₁, ∀ m', deleteF x = .raised m' → isDuplicateNameError m' = true) :
    deleterLoop deleteF (rs₁ ++ r :: rs₂) acc = .raised m := by
  induction rs₁ generalizing acc with
  | nil => simp [deleterLoop, hr, hm]
  | cons x rest ih =>
    have hrest : ∀ y ∈ rest, ∀ m', deleteF y = .raised m' → isDuplicateNameError m' = true :=
      fun y hy => hpre y (List.mem_cons_of_mem _ hy)
    cases hd : deleteF x with
    | success => simp [deleterLoop, hd, ih _ hrest]
    | successFalse => simp [deleterLoop, hd, ih _ hrest]
    | raised m' =>
      have hdup := hpre x (List.mem_cons_self _ _) m' hd
      simp [deleterLoop, hd, hdup, ih _ hrest]

/-- Whitespace splitting of an all-whitespace character list yields no
pieces. -/
lemma wsSplitAux_all_ws (l : List Char) (h : ∀ c ∈ l, c.isWhitespace = true) :
    wsSplitAux l [] = [] := by
  induction l with
  | nil => simp [wsSplitAux]
  | cons c cs ih =>
    have hc : c.isWhitespace = true := h c (List.mem_cons_self _ _)
    simp [wsSplitAux, hc, List.isEmpty, ih fun x hx => h x (List.mem_cons_of_mem _ hx)]

/-- URL parsing yields the empty list for an absent, empty, or
whitespace-only `jenkins_urls` argument. -/
lemma parseJenkinsUrls_eq_nil (jenkins_urls : Option String)
    (h : jenkins_urls = none ∨
      ∃ s, jenkins_urls = some s ∧ ∀ c ∈ s.data, c.isWhitespace = true) :
    parseJenkinsUrls jenkins_urls = [] := by
  rcases h with h | ⟨s, rfl, hws⟩
  · simp [h, parseJenkinsUrls]
  · by_cases hs : s = ""
    · simp [parseJenkinsUrls, hs]
    · simp [parseJenkinsUrls, hs, pySplitWs, wsSplitAux_all_ws s.data hws]

/-- A failed endpoint fetch contributes no builds. -/
lemma fetchOne_of_failed (fetch : String → JenkinsFetch) (u : String)
    (h : fetchFailed (fetch (rstripSlash u)) = true) : fetchOne fetch u = [] := by
  cases hf : fetch (rstripSlash u) with
  | response status body =>
    by_cases hs : status = 200
    · subst hs
      cases body with
      | invalid => simp [fetchOne, hf]
      | parsed cs => rw [hf] at h; exact absurd h (by simp [fetchFailed])
    · simp [fetchOne, hf, hs]
  | timeout => simp [fetchOne, hf]
  | requestError => simp [fetchOne, hf]
  | otherError => simp [fetchOne, hf]

/-- When every endpoint fetch fails, `_fetch_jenkins_builds` returns the
empty list (and raises nothing: every exception class is caught). -/
lemma fetchJenkinsBuilds_all_failed (urls : List String) (fetch : String → JenkinsFetch)
    (h : ∀ u ∈ urls, fetchFailed (fetch (rstripSlash u)) = true) :
    fetchJenkinsBuilds urls fetch = [] := by
  induction urls with
  | nil => rfl
  | cons u rest ih =>
    have h1 := fetchOne_of_failed fetch u (h u (List.mem_cons_self _ _))
    have h2 := ih fun x hx => h x (List.mem_cons_of_mem _ hx)
    simp [fetchJenkinsBuilds, h1] at h2 ⊢
    exact h2

/-- At fuel 1 and escalation counter 1, `main` performs no further
recursion: it returns depth 1 and never the fuel sentinel. -/
lemma voteMainAux_fuel1_counter1 (fc : String → List String) (voters : List String)
    (tsc : Option String) (t : String) :
    (voteMainAux fc voters tsc 1 t 1).2 = 1 ∧
      (voteMainAux fc voters tsc 1 t 1).1 ≠ .outOfFuel := by
  rw [show (1 : Nat) = 0 + 1 from rfl]
  simp only [voteMainAux]
  split
  · exact ⟨rfl, by simp⟩
  · split
    · cases tsc with
      | none => exact ⟨rfl, by simp⟩
      | some t' => simp
    · exact ⟨rfl, by simp⟩

/-- One vote stage passes exactly when someone voted and the majority
reaches one half. -/
lemma stagePasses_iff (fc : String → List String) (voters : List String) (file : String) :
    stagePasses fc voters file = true ↔
      (votedCommitters (fc file) voters).length ≠ 0 ∧
      (1 / 2 : ℚ) ≤ ((votedCommitters (fc file) voters).length : ℚ) / ((fc file).length : ℚ) := by
  simp [stagePasses]

/-- Complete characterization of `check_votes`: the committer stage
decides failure or success; with a TSC file a successful committer
stage is followed by exactly one more stage on the TSC file. -/
lemma check_votes_spec (fc : String → List String) (voters : List String) (file : String)
    (tsc : Option String) :
    check_votes fc voters file tsc =
      if stagePasses fc voters file = false then (.failExit, 1)
      else
        match tsc with
        | none => (.committerDone, 1)
        | some t => if stagePasses fc voters t = false then (.failExit, 2) else (.tscDone, 2) := by
  rw [check_votes, show (2 : Nat) = 1 + 1 from rfl]
  by_cases h0 : (votedCommitters (fc file) voters).length = 0
  · have hsp : stagePasses fc voters file = false := by
      rw [Bool.eq_false_iff, ne_eq, stagePasses_iff]
      exact fun hc => hc.1 h0
    simp [voteMainAux, h0, hsp]
  · by_cases hm : (1 / 2 : ℚ) ≤
        ((votedCommitters (fc file) voters).length : ℚ) / ((fc file).length : ℚ)
    · have hsp : stagePasses fc voters file = true := (stagePasses_iff _ _ _).mpr ⟨h0, hm⟩
      rw [hsp]
      rw [one_div] at hm
      cases tsc with
      | none =>
        simp [voteMainAux, h0, hm]
      | some t =>
        by_cases h0' : (votedCommitters (fc t) voters).length = 0
        · have hsp' : stagePasses fc voters t = false := by
            rw [Bool.eq_false_iff, ne_eq, stagePasses_iff]
            exact fun hc => hc.1 h0'
          simp [voteMainAux, h0, hm, h0', hsp', show ¬(0 + 1 = 2) by omega]
        · by_cases hm' : (1 / 2 : ℚ) ≤
              ((votedCommitters (fc t) voters).length : ℚ) / ((fc t).length : ℚ)
          · have hsp' : stagePasses fc voters t = true := (stagePasses_iff _ _ _).mpr ⟨h0', hm'⟩
            rw [one_div] at hm'
            simp [voteMainAux, h0, hm, h0', hm', hsp', show ¬(0 + 1 = 2) by omega]
          · have hsp' : stagePasses fc voters t = false := by
              rw [Bool.eq_false_iff, ne_eq, stagePasses_iff]
              exact fun hc => hm' hc.2
            rw [one_div, not_le] at hm'
            simp [voteMainAux, h0, hm, h0', not_le.mpr hm', hsp',
              show ¬(0 + 1 = 2) by omega]
    · have hsp : stagePasses fc voters file = false := by
        rw [Bool.eq_false_iff, ne_eq, stagePasses_iff]
        exact fun hc => hm hc.2
      rw [one_div, not_le] at hm
      simp [voteMainAux, h0, not_le.mpr hm, hsp]

/-! ## Claim theorems -/

/-- C6: for every vote check over a committer list and the derived
voted set: if the voted set is empty the check fails with a non-zero
exit regardless of committer count; otherwise, with majority computed
as the voted count divided by the total committer count, the check
succeeds exactly when the majority is at least `1/2` (the boundary
succeeds) and fails with a non-zero exit when it is below `1/2`. -/
theorem check_votes_majority_boundary (fc : String → List String) (voters : List String)
    (file : String) :
    ((votedCommitters (fc file) voters).length = 0 →
      check_votes fc voters file none = (.failExit, 1)) ∧
    ((votedCommitters (fc file) voters).length ≠ 0 →
      ((1 / 2 : ℚ) ≤ ((votedCommitters (fc file) voters).length : ℚ) / ((fc file).length : ℚ) →
        check_votes fc voters file none = (.committerDone, 1)) ∧
      (((votedCommitters (fc file) voters).length : ℚ) / ((fc file).length : ℚ) < (1 / 2 : ℚ) →
        check_votes fc voters file none = (.failExit, 1))) := by
  refine ⟨fun h0 => by simp [check_votes, voteMainAux, h0], fun h0 => ⟨fun hm => ?_, fun hm => ?_⟩⟩
  · rw [one_div] at hm
    simp [check_votes, voteMainAux, h0, hm]
  · rw [one_div] at hm
    simp [check_votes, voteMainAux, h0, not_le.mpr hm]

/-- C6 witness: committers `[a, b, c, d]` with voted `[a, b]` succeed
(majority exactly `1/2`), voted `[a]` fails, and an empty voted set
fails immediately. -/
theorem check_votes_majority_boundary_witness :
    check_votes (fun _ => ["a", "b", "c", "d"]) ["a", "b"] "INFO" none = (.committerDone, 1) ∧
    check_votes (fun _ => ["a", "b", "c", "d"]) ["a"] "INFO" none = (.failExit, 1) ∧
    check_votes (fun _ => ["a", "b", "c", "d"]) [] "INFO" none = (.failExit, 1) := by
  have h2 := check_votes_majority_boundary (fun _ => ["a", "b", "c", "d"]) ["a", "b"] "INFO"
  have h1 := check_votes_majority_boundary (fun _ => ["a", "b", "c", "d"]) ["a"] "INFO"
  have h0 := check_votes_majority_boundary (fun _ => ["a", "b", "c", "d"]) [] "INFO"
  refine ⟨?_, ?_, ?_⟩
  · refine (h2.2 (by decide)).1 ?_
    have : (votedCommitters ["a", "b", "c", "d"] ["a", "b"]).length = 2 := by decide
    rw [this]
    norm_num
  · refine (h1.2 (by decide)).2 ?_
    have : (votedCommitters ["a", "b", "c", "d"] ["a"]).length = 1 := by decide
    rw [this]
    norm_num
  · exact h0.1 (by decide)

/-- C7: the vote-check recursion depth is bounded by 2 for every input
(the fuel sentinel of the model is never reached); with a TSC file,
once the committer stage reaches majority the check recurses exactly
once more (total depth 2), and when that second stage also passes the
escalation counter reaches 2 and the run reports final success without
a third recursion. -/
theorem check_votes_depth_bounded (fc : String → List String) (voters : List String)
    (file t : String) :
    (∀ tsc : Option String,
      (check_votes fc voters file tsc).2 ≤ 2 ∧
      (check_votes fc voters file tsc).1 ≠ .outOfFuel) ∧
    (stagePasses fc voters file = true →
      (check_votes fc voters file (some t)).2 = 2 ∧
      (stagePasses fc voters t = true →
        (check_votes fc voters file (some t)).1 = .tscDone)) := by
  constructor
  · intro tsc
    rw [check_votes_spec]
    by_cases h1 : stagePasses fc voters file = false
    · simp [h1]
    · rw [if_neg h1]
      cases tsc with
      | none => exact ⟨by norm_num, by simp⟩
      | some t' =>
        by_cases h2 : stagePasses fc voters t' = false
        · simp [h2]
        · simp [h2]
  · intro h1
    rw [check_votes_spec, if_neg (by rw [h1]; exact fun h => Bool.noConfusion h)]
    refine ⟨?_, fun h2 => ?_⟩
    · by_cases h2 : stagePasses fc voters t = false
      · simp [h2]
      · simp [h2]
    · simp [h2]

/-- C7 witness: with committers `[a, b]` everywhere, voters `[a, b]`
and a TSC file, the run reaches depth 2 and reports TSC success. -/
theorem check_votes_depth_bounded_witness :
    (check_votes (fun _ => ["a", "b"]) ["a", "b"] "INFO" (some "TSC")).2 ≤ 2 ∧
    (check_votes (fun _ => ["a", "b"]) ["a", "b"] "INFO" (some "TSC")).2 = 2 ∧
    (check_votes (fun _ => ["a", "b"]) ["a", "b"] "INFO" (some "TSC")).1 = .tscDone := by
  have h := check_votes_depth_bounded (fun _ => ["a", "b"]) ["a", "b"] "INFO" "TSC"
  have hpass : stagePasses (fun _ => ["a", "b"]) ["a", "b"] "INFO" = true := by
    rw [stagePasses]
    have : (votedCommitters ["a", "b"] ["a", "b"]).length = 2 := by decide
    simp only [this]
    norm_num
  have hpass' : stagePasses (fun _ => ["a", "b"]) ["a", "b"] "TSC" = true := by
    rw [stagePasses]
    have : (votedCommitters ["a", "b"] ["a", "b"]).length = 2 := by decide
    simp only [this]
    norm_num
  exact ⟨(h.1 (some "TSC")).1, (h.2 hpass).1, (h.2 hpass).2 hpass'⟩

/-- C10: in the Gerrit branch, a committer is in the voted set iff some
reviewer record with their username has a Code-Review approval string
containing `"+1"` or `"+2"`; committers all of whose records carry
`"-1"`, `"-2"` or `"0"` are counted as not having voted, exactly like
committers with no record at all. -/
theorem gerrit_voted_iff_plus_vote :
    (∀ (changes : List (String × String)) (committers : List String) (c : String),
      c ∈ committers →
      (c ∈ votedCommitters committers (gerritVoters changes) ↔
        ∃ p ∈ changes, p.1 = c ∧
          (strContains p.2 "+1" = true ∨ strContains p.2 "+2" = true))) ∧
    (∀ (changes : List (String × String)) (committers : List String) (c : String),
      c ∈ committers →
      (∀ p ∈ changes, p.1 = c → p.2 = "-1" ∨ p.2 = "-2" ∨ p.2 = "0") →
      c ∉ votedCommitters committers (gerritVoters changes)) := by
  have main : ∀ (changes : List (String × String)) (committers : List String) (c : String),
      c ∈ committers →
      (c ∈ votedCommitters committers (gerritVoters changes) ↔
        ∃ p ∈ changes, p.1 = c ∧
          (strContains p.2 "+1" = true ∨ strContains p.2 "+2" = true)) := by
    intro changes committers c hc
    rw [votedCommitters, List.mem_filter]
    simp only [hc, true_and, List.contains_iff_exists_mem_beq, beq_iff_eq, gerritVoters,
      List.mem_filterMap]
    constructor
    · rintro ⟨b, ⟨p, hp, hfb⟩, hbc⟩
      subst hbc
      by_cases hcond : (strContains p.2 "+1" || strContains p.2 "+2") = true
      · rw [if_pos hcond] at hfb
        rw [Bool.or_eq_true] at hcond
        exact ⟨p, hp, Option.some_injective _ hfb, hcond⟩
      · rw [if_neg hcond] at hfb
        exact absurd hfb (Option.noConfusion)
    · rintro ⟨p, hp, hpc, hcond⟩
      refine ⟨c, ⟨p, hp, ?_⟩, rfl⟩
      rw [if_pos (by rw [Bool.or_eq_true]; exact hcond), hpc]
  refine ⟨main, fun changes committers c hc hneg hmem => ?_⟩
  obtain ⟨p, hp, hpc, hcond⟩ := (main changes committers c hc).mp hmem
  rcases hneg p hp hpc with h | h | h <;> rw [h] at hcond <;>
    rcases hcond with h' | h' <;> exact absurd h' (by decide)

/-- C10 witness: with reviewer records `u1:+1, u2:-1, u3:+2, u4:0` and
committers `u1..u5`, exactly `u1` and `u3` are in the voted set; `u2`
(who reviewed `-1`) is counted like `u5` (who never reviewed). -/
theorem gerrit_voted_iff_plus_vote_witness :
    ("u1" ∈ votedCommitters ["u1", "u2", "u3", "u4", "u5"]
        (gerritVoters [("u1", "+1"), ("u2", "-1"), ("u3", "+2"), ("u4", "0")]) ↔
      ∃ p ∈ [("u1", "+1"), ("u2", "-1"), ("u3", "+2"), ("u4", "0")], p.1 = "u1" ∧
        (strContains p.2 "+1" = true ∨ strContains p.2 "+2" = true)) ∧
    "u2" ∉ votedCommitters ["u1", "u2", "u3", "u4", "u5"]
      (gerritVoters [("u1", "+1"), ("u2", "-1"), ("u3", "+2"), ("u4", "0")]) := by
  have h := gerrit_voted_iff_plus_vote
  refine ⟨h.1 [("u1", "+1"), ("u2", "-1"), ("u3", "+2"), ("u4", "0")]
    ["u1", "u2", "u3", "u4", "u5"] "u1" (by decide), ?_⟩
  exact h.2 [("u1", "+1"), ("u2", "-1"), ("u3", "+2"), ("u4", "0")]
    ["u1", "u2", "u3", "u4", "u5"] "u2" (by decide) (by decide)

/-- C2: for every listed cluster (with a delete call that succeeds),
cluster cleanup deletes it if and only if its name contains neither
`"-managed-prod-k8s-"` nor `"-managed-test-k8s-"` and its name is not a
substring of the space-concatenated active-build-token list; in
particular, for clusters `["orphaned-1", "x-managed-prod-k8s-y",
"active-job-123"]` with the active build token
`"production-active-job-123"` derived from the Jenkins payload, exactly
`"orphaned-1"` is deleted. -/
theorem cluster_cleanup_deletes_iff :
    (∀ (builds clusters : List String) (name : String) (tr : ClusterTrace),
      clusterLoop (fun _ => .ok) builds clusters ⟨false, true, [], [], [], []⟩ = .normal tr →
      (name ∈ tr.deleted ↔
        name ∈ clusters ∧
        strContains name "-managed-prod-k8s-" = false ∧
        strContains name "-managed-test-k8s-" = false ∧
        strContains (joinSpace builds) name = false)) ∧
    cluster_cleanup (some "https://jenkins.example.org")
        (fun _ => .response 200
          (.parsed [⟨[⟨some "https://jenkins.example.org/job/active-job/123/"⟩], []⟩]))
        (.ok ["orphaned-1", "x-managed-prod-k8s-y", "active-job-123"]) (fun _ => .ok)
      = .normal ⟨false, true, ["orphaned-1"], ["x-managed-prod-k8s-y"],
          ["active-job-123"], []⟩ := by
  constructor
  · intro builds clusters name tr h
    rw [clusterLoop_all_ok] at h
    cases h
    simp only [List.nil_append, List.mem_filter, Bool.and_eq_true, Bool.not_eq_true',
      isManagedCluster, Bool.or_eq_false_iff, clusterInJenkins, and_assoc]
  · decide

/-- C2 witness: for the singleton cluster list `["a"]` with no active
builds, `"a"` is in the deleted set and satisfies the predicates. -/
theorem cluster_cleanup_deletes_iff_witness :
    "a" ∈ (ClusterTrace.mk false true ["a"] [] [] []).deleted ↔
      "a" ∈ ["a"] ∧
      strContains "a" "-managed-prod-k8s-" = false ∧
      strContains "a" "-managed-test-k8s-" = false ∧
      strContains (joinSpace []) "a" = false := by
  exact cluster_cleanup_deletes_iff.1 [] ["a"] "a" ⟨false, true, ["a"], [], [], []⟩ (by decide)

/-- C3: when the `jenkins_urls` argument is absent, empty, or
whitespace-only, cluster cleanup warns and returns: zero deletions and
no contact with the cloud provider, regardless of the cluster
population or delete behavior. -/
theorem cluster_cleanup_no_urls_aborts (jenkins_urls : Option String)
    (fetch : String → JenkinsFetch) (listResult : ClusterListResult)
    (deleteF : String → CoeDelete)
    (h : jenkins_urls = none ∨
      ∃ s, jenkins_urls = some s ∧ ∀ c ∈ s.data, c.isWhitespace = true) :
    cluster_cleanup jenkins_urls fetch listResult deleteF =
      .normal ⟨true, false, [], [], [], []⟩ := by
  rw [cluster_cleanup]
  simp [parseJenkinsUrls_eq_nil jenkins_urls h]

/-- C3 witness: a whitespace-only `jenkins_urls` string with a
populated cloud aborts with the warning trace. -/
theorem cluster_cleanup_no_urls_aborts_witness :
    cluster_cleanup (some "   ") (fun _ => .response 200 (.parsed []))
        (.ok ["orphaned-cluster"]) (fun _ => .ok) =
      .normal ⟨true, false, [], [], [], []⟩ := by
  exact cluster_cleanup_no_urls_aborts (some "   ") _ _ _
    (Or.inr ⟨"   ", rfl, by decide⟩)

/-- C1 counterexample: in cluster cleanup, a delete call that raises a
provider error whose message `"Delete failed"` matches neither
duplicate-name signature is caught and logged, and the run completes
normally with exit status 0 — it does not propagate or terminate the
run as fatal. -/
theorem cluster_delete_error_not_fatal_counterexample :
    cluster_cleanup (some "https://jenkins.example.org") (fun _ => .response 404 .invalid)
        (.ok ["orphaned-cluster"]) (fun _ => .cloudExc "Delete failed")
      = .normal ⟨false, true, [], [], [], ["orphaned-cluster"]⟩ ∧
    isDuplicateNameError "Delete failed" = false ∧
    exitStatus (cluster_cleanup (some "https://jenkins.example.org")
        (fun _ => .response 404 .invalid)
        (.ok ["orphaned-cluster"]) (fun _ => .cloudExc "Delete failed")) = 0 := by
  decide

/-- C1 amended: for server, volume and image cleanup, a delete call
raising an error that does not match a duplicate-name signature
propagates out of the deleter and terminates the run; for cluster
cleanup, a provider delete error never terminates the per-cluster loop
(it is caught and logged and the run continues). -/
theorem unexpected_delete_error_behavior :
    (∀ (deleteF : String → DeleteCallResult) (rs₁ rs₂ : List String) (r m : String),
      deleteF r = .raised m → isDuplicateNameError m = false →
      (∀ x ∈ rs₁, ∀ m', deleteF x = .raised m' → isDuplicateNameError m' = true) →
      cleanup_deleter (rs₁ ++ r :: rs₂) deleteF = .raised m) ∧
    (∀ (deleteF : String → CoeDelete) (builds clusters : List String) (tr : ClusterTrace),
      (∀ n m, deleteF n ≠ .otherExc m) →
      ∃ tr', clusterLoop deleteF builds clusters tr = .normal tr') := by
  exact ⟨fun deleteF rs₁ rs₂ r m hr hm hpre =>
      deleterLoop_raises deleteF rs₁ r rs₂ [] m hr hm hpre,
    fun deleteF builds clusters tr h => clusterLoop_no_other deleteF builds clusters tr h⟩

/-- C1 amended witness: a deleter run where `"b"` raises
`"Unexpected error"` terminates with that error raised, and a cluster
loop whose delete raises only provider errors completes normally. -/
theorem unexpected_delete_error_behavior_witness :
    cleanup_deleter (["a"] ++ "b" :: [])
        (fun r => if r == "a" then .success else .raised "Unexpected error")
      = .raised "Unexpected error" ∧
    ∃ tr', clusterLoop (fun _ => .cloudExc "Delete failed") [] ["orphaned-cluster"]
        ⟨false, true, [], [], [], []⟩ = .normal tr' := by
  have h := unexpected_delete_error_behavior
  constructor
  · refine h.1 (fun r => if r == "a" then .success else .raised "Unexpected error")
      ["a"] [] "b" "Unexpected error" (by decide) (by decide) ?_
    intro x hx m' hm'
    rcases List.mem_singleton.mp hx with rfl
    simp at hm'
  · exact h.2 (fun _ => .cloudExc "Delete failed") [] ["orphaned-cluster"]
      ⟨false, true, [], [], [], []⟩ (fun n m => by simp)

/-- C9 counterexample: with a configured Jenkins URL whose fetch times
out, `_fetch_jenkins_builds` returns the empty list and cleanup
proceeds past the URL guard — but a cluster with the empty name, which
is not managed-exempt, is still skipped as "in use" (the empty string
is a substring of the empty joined token list), so not every
non-managed cluster becomes eligible for deletion. -/
theorem fetch_failure_empty_name_counterexample :
    fetchJenkinsBuilds (parseJenkinsUrls (some "https://jenkins.example.org"))
        (fun _ => .timeout) = [] ∧
    cluster_cleanup (some "https://jenkins.example.org") (fun _ => .timeout)
        (.ok [""]) (fun _ => .ok)
      = .normal ⟨false, true, [], [], [""], []⟩ ∧
    isManagedCluster "" = false := by
  decide

/-- C9 amended: when the parsed URL list is non-empty and every
endpoint fetch fails, `_fetch_jenkins_builds` raises nothing and
returns the empty list, cleanup proceeds past the empty-endpoint
guard, and every cluster with a non-empty name that is not
managed-exempt is deleted. -/
theorem fetch_failure_all_eligible (urlString : String) (fetch : String → JenkinsFetch)
    (clusters : List String) (name : String)
    (hurls : parseJenkinsUrls (some urlString) ≠ [])
    (hfail : ∀ u ∈ parseJenkinsUrls (some urlString),
      fetchFailed (fetch (rstripSlash u)) = true)
    (hname : name ∈ clusters) (hne : name ≠ "")
    (hman : isManagedCluster name = false) :
    fetchJenkinsBuilds (parseJenkinsUrls (some urlString)) fetch = [] ∧
    ∃ tr, cluster_cleanup (some urlString) fetch (.ok clusters) (fun _ => .ok) = .normal tr ∧
      name ∈ tr.deleted := by
  have hb := fetchJenkinsBuilds_all_failed (parseJenkinsUrls (some urlString)) fetch hfail
  refine ⟨hb, ?_⟩
  rw [cluster_cleanup]
  simp only [hurls, if_false, hb]
  rw [clusterLoop_all_ok]
  refine ⟨_, rfl, ?_⟩
  simp only [List.nil_append, List.mem_filter, Bool.and_eq_true, Bool.not_eq_true']
  refine ⟨hname, hman, ?_⟩
  rw [clusterInJenkins]
  exact strContains_empty_of_ne name hne

/-- C9 amended witness: Jenkins URL `"https://jenkins.example.org"`
with every fetch timing out deletes the non-managed cluster
`"orphaned-cluster"`. -/
theorem fetch_failure_all_eligible_witness :
    fetchJenkinsBuilds (parseJenkinsUrls (some "https://jenkins.example.org"))
        (fun _ => .timeout) = [] ∧
    ∃ tr, cluster_cleanup (some "https://jenkins.example.org") (fun _ => .timeout)
        (.ok ["orphaned-cluster"]) (fun _ => .ok) = .normal tr ∧
      "orphaned-cluster" ∈ tr.deleted := by
  exact fetch_failure_all_eligible "https://jenkins.example.org" (fun _ => .timeout)
    ["orphaned-cluster"] "orphaned-cluster" (by decide) (by intro u hu; rfl)
    (by decide) (by decide) (by decide)

/-- C4: an image that is public, has visibility `"shared"`, or is
protected (either protection flag) is never in the deletion candidate
set of an image cleanup run, regardless of its age, its owner, or the
configured threshold — so no delete call is ever issued for it. -/
theorem image_protected_never_deleted (now : Int) (days : Nat) (tenant : String)
    (imgs : List OsImage) (img : OsImage) (hmem : img ∈ imgs)
    (h : img.is_public = true ∨ img.visibility = "shared" ∨
      img.is_protected = true ∨ img.protectedFlag = true) :
    img ∉ image_cleanup_candidates now days tenant imgs := by
  intro hc
  rw [image_cleanup_candidates, List.mem_filter] at hc
  have helig := hc.2
  rw [image_eligible] at helig
  simp only [Bool.and_eq_true, Bool.not_eq_true', Bool.or_eq_false_iff,
    bne_iff_ne, ne_eq, beq_iff_eq] at helig
  rcases h with h | h | h | h
  · exact absurd h (by simp [helig.1.1.1.1.1])
  · exact absurd h helig.1.1.1.2
  · exact absurd h (by simp [helig.1.1.2.1])
  · exact absurd h (by simp [helig.1.1.2.2])

/-- C4 witness: an old shared image owned by the tenant is not a
candidate. -/
theorem image_protected_never_deleted_witness :
    (OsImage.mk "img" "tenant-1" "shared" false false false 0) ∉
      image_cleanup_candidates 864000000 5 "tenant-1"
        [OsImage.mk "img" "tenant-1" "shared" false false false 0] := by
  exact image_protected_never_deleted 864000000 5 "tenant-1" _ _ (by decide)
    (Or.inr (Or.inl rfl))

/-- C5: in a server/volume/image cleanup run whose raised delete errors
all match a duplicate-name signature, the run completes normally with
exit status 0, every resource receives an outcome in order (the run
continues past each failure), and each duplicate-raising resource is
counted as skipped. -/
theorem duplicate_name_error_skipped (rs : List String)
    (deleteF : String → DeleteCallResult)
    (h : ∀ r ∈ rs, ∀ m, deleteF r = .raised m → isDuplicateNameError m = true) :
    cleanup_deleter rs deleteF =
      .normal (rs.map (fun r => (r, itemOutcomeOf (deleteF r)))) ∧
    exitStatus (cleanup_deleter rs deleteF) = 0 ∧
    (rs.map (fun r => (r, itemOutcomeOf (deleteF r)))).map Prod.fst = rs ∧
    (∀ r m, r ∈ rs → deleteF r = .raised m →
      (r, ItemOutcome.skippedDuplicate) ∈ rs.map (fun r => (r, itemOutcomeOf (deleteF r)))) := by
  have hmain := deleterLoop_all_tolerated deleteF rs [] h
  rw [cleanup_deleter]
  refine ⟨by simpa using hmain, by rw [show deleterLoop deleteF rs [] =
      .normal (rs.map (fun r => (r, itemOutcomeOf (deleteF r)))) by simpa using hmain]; rfl,
    by rw [List.map_map, show (Prod.fst ∘ fun r : String =>
      (r, itemOutcomeOf (deleteF r))) = id from rfl, List.map_id], ?_⟩
  intro r m hr hraise
  refine List.mem_map.mpr ⟨r, hr, ?_⟩
  rw [hraise]
  rfl

/-- C5 witness: deleting `["server-1", "server-2"]` where the second
raises `"More than one Server exists with the name 'server-2'"`
completes with the duplicate counted as skipped and exit status 0. -/
theorem duplicate_name_error_skipped_witness :
    cleanup_deleter ["server-1", "server-2"]
        (fun r => if r == "server-1" then .success
          else .raised "More than one Server exists with the name 'server-2'")
      = .normal [("server-1", .deletedItem), ("server-2", .skippedDuplicate)] ∧
    exitStatus (cleanup_deleter ["server-1", "server-2"]
        (fun r => if r == "server-1" then .success
          else .raised "More than one Server exists with the name 'server-2'")) = 0 := by
  have h := duplicate_name_error_skipped ["server-1", "server-2"]
    (fun r => if r == "server-1" then .success
      else .raised "More than one Server exists with the name 'server-2'")
    (by
      intro r hr m hm
      simp only [List.mem_cons, List.not_mem_nil, or_false] at hr
      rcases hr with rfl | rfl
      · simp at hm
      · simp only [show (("server-2" == "server-1") = false) from rfl, Bool.false_eq_true,
          if_false, DeleteCallResult.raised.injEq] at hm
        rcases hm with rfl
        decide)
  exact ⟨by simpa using h.1, h.2.1⟩

/-- C8: the single-resource remove operation (servers/volumes): a
failed lookup exits with status 1 and issues no delete; with a non-zero
minutes threshold, a resource younger than the threshold is skipped
without error and without a delete call; with a zero threshold the
resource is always deleted regardless of age. -/
theorem remove_resource_contract :
    (∀ (now : Int) (minutes : Nat), remove_resource none now minutes = .notFound 1) ∧
    (∀ (r : OsResource) (now : Int) (minutes : Nat),
      minutes ≠ 0 → now - r.created_at < (minutes : Int) * 60 →
      remove_resource (some r) now minutes = .skippedYoung) ∧
    (∀ (r : OsResource) (now : Int), remove_resource (some r) now 0 = .deletedRes) := by
  refine ⟨fun now minutes => rfl, fun r now minutes hmz hage => ?_, fun r now => ?_⟩
  · rw [remove_resource, if_pos ⟨hmz, hage⟩]
  · rw [remove_resource, if_neg (fun hc => hc.1 rfl)]

/-- C8 witness: a missing lookup exits 1; a 30-second-old resource with
a 5-minute threshold is skipped; the same resource with threshold 0 is
deleted. -/
theorem remove_resource_contract_witness :
    remove_resource none 30 5 = .notFound 1 ∧
    remove_resource (some (OsResource.mk "res" "id-1" 0)) 30 5 = .skippedYoung ∧
    remove_resource (some (OsResource.mk "res" "id-1" 0)) 30 0 = .deletedRes := by
  have h := remove_resource_contract
  exact ⟨h.1 30 5, h.2.1 (OsResource.mk "res" "id-1" 0) 30 5 (by decide) (by decide),
    h.2.2 (OsResource.mk "res" "id-1" 0) 30⟩

end LftoolsUv
